import Mathlib

/-!
Verification of go-execute: command resolution, environment resolution and `Execute`.

A shallow embedding of `pkg/v2/exec.go` and, in the names that start with `v1.`, of
`pkg/v1/exec.go`.

* Go strings are Lean `String`s; a Go slice is a `List` (a nil slice and an empty
  slice are both `[]`).
* The pieces of the Go standard library the file calls (`strings.Split`,
  `strings.Join`, `strings.Contains`, `strings.TrimSpace`, `fmt.Sprintf("%s %s")`)
  are modelled in the namespaces `strings` and `fmt`.
* The operating system is an explicit input (`World`): the inherited environment,
  what `ctx.Err()` answers, what `cmd.Start()` and `cmd.Wait()` answer and what the
  child writes.  What `Execute` does to the outside is an explicit output (`Effects`).
-/

set_option autoImplicit false

namespace strings

/-- The pieces of `cs` between occurrences of `sep`, as a first piece and the list of
the remaining pieces: a split on a separator always has at least one piece. -/
def splitChars (sep : Char) : List Char → List Char × List (List Char)
  | [] => ([], [])
  | c :: cs =>
    let r := splitChars sep cs
    if c = sep then ([], r.1 :: r.2) else (c :: r.1, r.2)

/-- Go `strings.Split(s, sep)` for a one-byte separator (the source only splits on
`" "` and `"="`): `s` cut at every occurrence of `sep`; never an empty list. -/
def Split (s : String) (sep : Char) : List String :=
  let r := splitChars sep s.data
  String.mk r.1 :: r.2.map String.mk

/-- Go `strings.Join(elems, sep)`. -/
def Join : List String → String → String
  | [], _ => ""
  | [a], _ => a
  | a :: b :: rest, sep => a ++ sep ++ Join (b :: rest) sep

/-- Go `strings.Contains(s, sep)` for a one-byte `sep`. -/
def Contains (s : String) (sep : Char) : Bool :=
  s.data.contains sep

/-- Go `unicode.IsSpace`: the code points with the Unicode White_Space property. -/
def isSpace (c : Char) : Bool :=
  let n := c.toNat
  (9 ≤ n && n ≤ 13) || n == 32 || n == 0x85 || n == 0xA0 || n == 0x1680 ||
  (0x2000 ≤ n && n ≤ 0x200A) || n == 0x2028 || n == 0x2029 || n == 0x202F ||
  n == 0x205F || n == 0x3000

/-- Go `strings.TrimSpace(s)`: `s` without its leading and trailing white space. -/
def TrimSpace (s : String) : String :=
  String.mk ((s.data.dropWhile isSpace).reverse.dropWhile isSpace).reverse

/-- The byte offset of the first `sep` in `cs`, if there is one. -/
def indexChars (sep : Char) : List Char → Option Nat
  | [] => none
  | c :: cs => if c = sep then some 0 else (indexChars sep cs).map (fun i => i + c.utf8Size)

/-- Go `strings.Index(s, sep)` for a one-byte `sep`: the byte offset of the first `sep`
in `s`, or `-1` when `s` has none. -/
def Index (s : String) (sep : Char) : Int :=
  match indexChars sep s.data with
  | some i => i
  | none => -1

end strings

namespace fmt

/-- Go `fmt.Sprintf("%s %s", a, b)`. -/
def Sprintf_s_s (a b : String) : String :=
  a ++ " " ++ b

end fmt

/-- A caller-supplied `io.Writer`, known by an identifier. -/
structure SinkId where
  id : Nat
  deriving DecidableEq, Repr

/-- The task: `ExecTask` of `pkg/v2/exec.go`. `Stdin` is the data of the reader, when
one is given; `StdOut` and `StdErr` are the caller's writers, when given. -/
structure ExecTask where
  Command : String := ""
  Args : List String := []
  Shell : Bool := false
  ShallPath : String := ""
  Env : List String := []
  Cwd : String := ""
  Stdin : Option String := none
  StreamStdio : Bool := false
  StdOut : Option SinkId := none
  StdErr : Option SinkId := none
  PrintCommand : Bool := false
  deriving DecidableEq, Repr

/-- `ExecTask.buildCommand`: the executable and the argument vector of a task. -/
def ExecTask.buildCommand (et : ExecTask) : String × List String :=
  if et.Shell then
    let command := "/bin/bash"
    let command :=
      if strings.TrimSpace et.ShallPath ≠ "" then strings.TrimSpace et.ShallPath else command
    if et.Args.length = 0 then
      let startArgs := strings.Split et.Command ' '
      let script := strings.Join startArgs " "
      (command, ["-c"] ++ [script])
    else
      let script := strings.Join et.Args " "
      (command, ["-c"] ++ [fmt.Sprintf_s_s et.Command script])
  else if strings.Contains et.Command ' ' then
    let parts := strings.Split et.Command ' '
    (parts.headD "", parts.drop 1)
  else
    (et.Command, et.Args)

/-- The key of an environment entry, the expression `strings.Split(env, "=")[0]` that
`EnvVars` evaluates on every entry. -/
def envKey (env : String) : String :=
  (strings.Split env '=').headD ""

/-- `ExecTask.EnvVars`, with `os.Environ()` as the input `environ`. The Go map
`overrides` is an association list: `overrides[key] = true` puts a pair in front and
`_, ok := overrides[key]` looks the key up. -/
def ExecTask.EnvVars (et : ExecTask) (environ : List String) : List String :=
  if et.Env.length = 0 then environ
  else
    let st := et.Env.foldl
      (fun (st : List String × List (String × Bool)) env =>
        let key := (strings.Split env '=').headD ""
        (st.1 ++ [env], (key, true) :: st.2))
      ([], [])
    environ.foldl
      (fun envVars env =>
        let key := (strings.Split env '=').headD ""
        if (st.2.lookup key).isSome then envVars else envVars ++ [env])
      st.1

/-- `ExecTask.String`. -/
def ExecTask.String (et : ExecTask) : String :=
  let r := et.buildCommand
  strings.TrimSpace (fmt.Sprintf_s_s r.1 (strings.Join r.2 " "))

/-- Go `os.ProcessState`, as far as `ExitCode` looks at it: the process exited with a
status, or it was terminated by a signal. -/
inductive ProcessState where
  | exited (status : Nat)
  | signaled (signal : Nat)
  deriving DecidableEq, Repr

/-- Go `(*os.ProcessState).ExitCode`: the exit status of an exited process, `-1` for a
process terminated by a signal. -/
def ProcessState.ExitCode : ProcessState → Int
  | .exited status => status
  | .signaled _ => -1

/-- The Go `error` values `Execute` can meet: `context.Canceled`,
`context.DeadlineExceeded`, an `*exec.ExitError` with its process state, and any other
error, known by its message. -/
inductive GoError where
  | Canceled
  | DeadlineExceeded
  | ExitError (state : ProcessState)
  | other (msg : String)
  deriving DecidableEq, Repr

/-- `ExecResult` of `pkg/v2/exec.go`; the defaults are Go's zero values. -/
structure ExecResult where
  Stdout : String := ""
  Stderr : String := ""
  ExitCode : Int := 0
  Cancelled : Bool := false
  deriving DecidableEq, Repr

/-- One destination of a writer wired to the child: the stream of the invoking process
(`os.Stdout` or `os.Stderr`), the capture buffer (`stdoutBuff` or `stderrBuff`), or a
writer of the caller. -/
inductive Dest where
  | osStream
  | buffer
  | sink (s : SinkId)
  deriving DecidableEq, Repr

/-- The `exec.Cmd` that `Execute` configures. A writer is the list of destinations that
receive every chunk: `&buff` is `[buffer]`, `io.MultiWriter(os.Stdout, &buff)` is
`[osStream, buffer]`, a writer of the caller is `[sink s]`. -/
structure Cmd where
  Path : String
  Args : List String
  Dir : String
  Env : List String
  Stdin : Option String
  Stdout : List Dest
  Stderr : List Dest
  deriving DecidableEq, Repr

/-- What the outside answers during one call of `Execute`. `ctxErrEntry` is `ctx.Err()`
on entry (a context error never changes once set, so the three reads of the early return
are one observation); `startErr` is the result of `cmd.Start()`; `stdoutWrites` and
`stderrWrites` are the chunks the child writes before `cmd.Wait()` returns; `waitErr` is
the result of `cmd.Wait()`; `ctxErrExit` is `ctx.Err()` in the final return statement
(its two reads are one observation). Writes to `os.Stdout`, `os.Stderr` and to the
caller's writers are taken to succeed. -/
structure World where
  environ : List String := []
  ctxErrEntry : Option GoError := none
  startErr : Option GoError := none
  stdoutWrites : List String := []
  stderrWrites : List String := []
  waitErr : Option GoError := none
  ctxErrExit : Option GoError := none
  deriving DecidableEq, Repr

/-- What `Execute` does to the outside: the lines printed by `PrintCommand`, the command
on which `Start` was called (if any), and the chunks that reached `os.Stdout`,
`os.Stderr`, the caller's `StdOut` writer and the caller's `StdErr` writer. -/
structure Effects where
  printed : List String := []
  startCalled : Option Cmd := none
  osStdout : List String := []
  osStderr : List String := []
  sinkStdout : List String := []
  sinkStderr : List String := []
  deriving DecidableEq, Repr

/-- The value `Execute` returns, with its effects. -/
structure Outcome where
  res : ExecResult
  err : Option GoError
  eff : Effects
  deriving DecidableEq, Repr

/-- The chunks that reach the destinations selected by `p` through writer `w`. -/
def delivered (w : List Dest) (p : Dest → Bool) (chunks : List String) : List String :=
  if w.any p then chunks else []

/-- Whether a destination is a writer of the caller. -/
def Dest.isSink : Dest → Bool
  | .sink _ => true
  | _ => false

/-- Go `(*bytes.Buffer).String` after the given chunks were written to it. -/
def bufferString (chunks : List String) : String :=
  String.join chunks

/-- `ExecTask.Execute` of `pkg/v2/exec.go`. -/
def ExecTask.Execute (et : ExecTask) (w : World) : Outcome :=
  let bc := et.buildCommand
  let command := bc.1
  let commandArgs := bc.2
  let printed :=
    if et.PrintCommand then
      ["exec: " ++ strings.TrimSpace (fmt.Sprintf_s_s command (strings.Join commandArgs " "))
        ++ "\n"]
    else []
  -- don't try to run if the context is already cancelled
  if w.ctxErrEntry ≠ none then
    { res := { ExitCode := -1, Cancelled := decide (w.ctxErrEntry = some GoError.Canceled) }
      err := w.ctxErrEntry
      eff := { printed := printed } }
  else
    let cmdStdout := [Dest.buffer]
    let cmdStderr := [Dest.buffer]
    let cmdStdout := if et.StreamStdio then [Dest.osStream, Dest.buffer] else cmdStdout
    let cmdStderr := if et.StreamStdio then [Dest.osStream, Dest.buffer] else cmdStderr
    let cmdStdout := match et.StdOut with
      | some s => [Dest.sink s]
      | none => cmdStdout
    let cmdStderr := match et.StdErr with
      | some s => [Dest.sink s]
      | none => cmdStderr
    let cmd : Cmd :=
      { Path := command, Args := commandArgs, Dir := et.Cwd, Env := et.EnvVars w.environ,
        Stdin := et.Stdin, Stdout := cmdStdout, Stderr := cmdStderr }
    match w.startErr with
    | some startErr =>
      { res := {}, err := some startErr, eff := { printed := printed, startCalled := some cmd } }
    | none =>
      let stdoutBuff := delivered cmd.Stdout (· = Dest.buffer) w.stdoutWrites
      let stderrBuff := delivered cmd.Stderr (· = Dest.buffer) w.stderrWrites
      let exitCode : Int := match w.waitErr with
        | some (GoError.ExitError state) => state.ExitCode
        | _ => 0
      { res :=
          { Stdout := bufferString stdoutBuff
            Stderr := bufferString stderrBuff
            ExitCode := exitCode
            Cancelled := decide (w.ctxErrExit = some GoError.Canceled) }
        err := w.ctxErrExit
        eff :=
          { printed := printed
            startCalled := some cmd
            osStdout := delivered cmd.Stdout (· = Dest.osStream) w.stdoutWrites
            osStderr := delivered cmd.Stderr (· = Dest.osStream) w.stderrWrites
            sinkStdout := delivered cmd.Stdout Dest.isSink w.stdoutWrites
            sinkStderr := delivered cmd.Stderr Dest.isSink w.stderrWrites } }

/-! ## The v1 package -/

/-- A `context.Context` given by the caller, known by an identifier. -/
structure v1.ContextId where
  id : Nat
  deriving DecidableEq, Repr

/-- The task: `ExecTask` of `pkg/v1/exec.go`. A nil `Context` is `none`. -/
structure v1.ExecTask where
  Command : String := ""
  Args : List String := []
  Shell : Bool := false
  Env : List String := []
  Cwd : String := ""
  Stdin : Option String := none
  StreamStdio : Bool := false
  PrintCommand : Bool := false
  Context : Option v1.ContextId := none
  deriving DecidableEq, Repr

/-- `ExecResult` of `pkg/v1/exec.go`; the defaults are Go's zero values. -/
structure v1.ExecResult where
  Stdout : String := ""
  Stderr : String := ""
  ExitCode : Int := 0
  deriving DecidableEq, Repr

/-- The name and the arguments that v1 `Execute` gives to `exec.Command` (the
`if et.Shell` statement of `Execute`). -/
def v1.ExecTask.execCommand (et : v1.ExecTask) : String × List String :=
  if et.Shell then
    let args :=
      if et.Args.length = 0 then
        let startArgs := strings.Split et.Command ' '
        let script := strings.Join startArgs " "
        ["-c"] ++ [script]
      else
        let script := strings.Join et.Args " "
        ["-c"] ++ [fmt.Sprintf_s_s et.Command script]
    ("/bin/bash", args)
  else if strings.Index et.Command ' ' > 0 then
    let parts := strings.Split et.Command ' '
    (parts.headD "", parts.drop 1)
  else
    (et.Command, et.Args)

/-- What the outside answers during one call of v1 `Execute`. `startErr`, `waitErr`,
`stdoutWrites` and `stderrWrites` are as in `World`. `ctxFired` is the error of the
caller's context when that context fires before the second goroutine has passed
`<-child.Done()`, and `none` when it does not. The other fields are the scheduling of
the two goroutines: `processSet` says whether `Start` has set `cmd.Process` when the
second goroutine calls `cmd.Process.Kill()`; `sawSuccess` says, when the caller's context
fired, whether the second goroutine reads `success` after the first one has set it;
`ctxErrFirst` says, when both goroutines return an error, whether the one of the second
goroutine is recorded first by the `errgroup`. -/
structure v1.World where
  environ : List String := []
  startErr : Option GoError := none
  stdoutWrites : List String := []
  stderrWrites : List String := []
  waitErr : Option GoError := none
  ctxFired : Option GoError := none
  processSet : Bool := true
  sawSuccess : Bool := true
  ctxErrFirst : Bool := false
  deriving DecidableEq, Repr

/-- How a call of v1 `Execute` ends: it returns a result and an error; or `g.Wait()`
never returns, because the second goroutine waits for a context that is never done; or
the second goroutine dereferences the nil `cmd.Process`. -/
inductive v1.Ret where
  | returns (res : v1.ExecResult) (err : Option GoError)
  | blocks
  | panics
  deriving DecidableEq, Repr

/-- A call of v1 `Execute`: the `exec.Cmd` it configures, the line `PrintCommand` prints,
and how the call ends. -/
structure v1.Outcome where
  cmd : Cmd
  printed : List String
  ret : v1.Ret
  deriving DecidableEq, Repr

/-- Go `(*errgroup.Group).Wait` for the two goroutines of v1 `Execute`: the first
non-nil error that was returned, nil when both returned nil. -/
def v1.groupWait (err1 err2 : Option GoError) (secondFirst : Bool) : Option GoError :=
  match err1, err2 with
  | none, err2 => err2
  | some e1, none => some e1
  | some e1, some e2 => if secondFirst then some e2 else some e1

/-- The last statements of v1 `Execute`: the zero-value result with the error of
`g.Wait()` when there is one, else the buffers and `exitCode` with a nil error. -/
def v1.returnAfterWait (gWait : Option GoError) (stdoutBuff stderrBuff : List String)
    (exitCode : Int) : v1.Ret :=
  match gWait with
  | some err => v1.Ret.returns {} (some err)
  | none =>
    v1.Ret.returns
      { Stdout := bufferString stdoutBuff, Stderr := bufferString stderrBuff,
        ExitCode := exitCode }
      none

/-- `ExecTask.Execute` of `pkg/v1/exec.go`. The log line of a failed `Kill` is not
modelled. -/
def v1.ExecTask.Execute (et : v1.ExecTask) (w : v1.World) : v1.Outcome :=
  -- ctx := et.Context, context.Background() when nil: that one never fires
  let ctxFired : Option GoError := match et.Context with
    | none => none
    | some _ => w.ctxFired
  let argsSt := if et.Args.length > 0 then strings.Join et.Args " " else ""
  let printed :=
    if et.PrintCommand then ["exec: " ++ " " ++ et.Command ++ " " ++ argsSt ++ "\n"] else []
  let ca := et.execCommand
  let cmdEnv : List String :=
    if et.Env.length > 0 then
      let st := et.Env.foldl
        (fun (st : List String × List (String × Bool)) env =>
          let key := (strings.Split env '=').headD ""
          (st.1 ++ [env], (key, true) :: st.2))
        ([], [])
      w.environ.foldl
        (fun cmdEnv env =>
          let key := (strings.Split env '=').headD ""
          if (st.2.lookup key).isSome then cmdEnv else cmdEnv ++ [env])
        st.1
    else []
  let stdoutWriters := if et.StreamStdio then [Dest.osStream, Dest.buffer] else [Dest.buffer]
  let stderrWriters := if et.StreamStdio then [Dest.osStream, Dest.buffer] else [Dest.buffer]
  let cmd : Cmd :=
    { Path := ca.1, Args := ca.2, Dir := et.Cwd, Env := cmdEnv, Stdin := et.Stdin,
      Stdout := stdoutWriters, Stderr := stderrWriters }
  let stdoutBuff := delivered cmd.Stdout (· = Dest.buffer) w.stdoutWrites
  let stderrBuff := delivered cmd.Stderr (· = Dest.buffer) w.stderrWrites
  let success := false
  let exitCode : Int := 0
  -- the first goroutine: its error, `success` and `exitCode` when it has returned
  let g1 : Option GoError × Bool × Int :=
    match w.startErr with
    | some err => (some err, success, exitCode)
    | none =>
      match w.waitErr with
      | some err =>
        (some err, success,
          match err with
          | GoError.ExitError state => state.ExitCode
          | _ => exitCode)
      | none => (none, true, exitCode)
  let err1 := g1.1
  let success := g1.2.1
  let exitCode := g1.2.2
  -- the second goroutine: `child` is done when the caller's context fires or when the
  -- first goroutine calls `cancel()` after it has set `success`
  let ret : v1.Ret :=
    if ctxFired = none ∧ success = false then v1.Ret.blocks
    else
      let ctxErr : GoError := ctxFired.getD GoError.Canceled
      let successRead := success && (decide (ctxFired = none) || w.sawSuccess)
      if successRead then
        -- the second goroutine returns nil
        v1.returnAfterWait (v1.groupWait err1 none w.ctxErrFirst) stdoutBuff stderrBuff exitCode
      else if w.startErr ≠ none ∨ w.processSet = false then v1.Ret.panics
      else
        -- cmd.Process.Kill(), exitCode = 1, return ctxErr
        let exitCode : Int := 1
        v1.returnAfterWait (v1.groupWait err1 (some ctxErr) w.ctxErrFirst) stdoutBuff stderrBuff
          exitCode
  { cmd := cmd, printed := printed, ret := ret }

/-! ## Concrete tasks and worlds -/

/-- The task that lists a path that does not exist. -/
def lsMissing : ExecTask :=
  { Command := "ls /unknown/location/should/fail" }

/-- The task `lsMissing` with a writer of the caller for stderr. -/
def lsMissingToSink : ExecTask :=
  { Command := "ls /unknown/location/should/fail", StdErr := some ⟨1⟩ }

/-- The context never fires; the child starts, writes one line to stderr and exits with
status 2. -/
def exitsWith2 : World :=
  { stderrWrites := ["ls: cannot access '/unknown/location/should/fail'",
                     ": No such file or directory\n"]
    waitErr := some (GoError.ExitError (ProcessState.exited 2)) }

/-- The deadline of the context has expired before `Execute` is called. -/
def deadlinePassed : World :=
  { ctxErrEntry := some GoError.DeadlineExceeded }

/-- The context is cancelled before `Execute` is called. -/
def cancelledBefore : World :=
  { ctxErrEntry := some GoError.Canceled }

/-- The deadline of the context expires while the child runs: the child has written
`"partial"` to stdout, is killed (signal 9), and `ctx.Err()` is
`context.DeadlineExceeded` on return. -/
def timedOutRun : World :=
  { stdoutWrites := ["partial"]
    waitErr := some (GoError.ExitError (ProcessState.signaled 9))
    ctxErrExit := some GoError.DeadlineExceeded }

/-- The context is cancelled while the child runs: the child has written `"partial"` to
stdout, is killed (signal 9), and `ctx.Err()` is `context.Canceled` on return. -/
def cancelledRun : World :=
  { stdoutWrites := ["partial"]
    waitErr := some (GoError.ExitError (ProcessState.signaled 9))
    ctxErrExit := some GoError.Canceled }

/-- The executable is not found: `Start` fails. -/
def startFails : World :=
  { startErr := some (GoError.other
      "fork/exec /bin/go_execute_you_cant_find_me: no such file or directory") }

/-- A task that streams its output and supplies its own stdout writer. -/
def echoToSink : ExecTask :=
  { Command := "echo hi", StreamStdio := true, StdOut := some ⟨7⟩ }

/-- The context never fires; the child writes to both streams and exits normally. -/
def writesBoth : World :=
  { stdoutWrites := ["hi\n"], stderrWrites := ["warn\n"] }

/-- A v1 task with a context: `false` run directly. -/
def v1.falseTask : v1.ExecTask :=
  { Command := "/bin/false", Context := some ⟨0⟩ }

/-- The child writes to both streams and exits with status 3; the caller's context fires
afterwards, by its deadline. -/
def v1.exits3ThenDeadline : v1.World :=
  { stdoutWrites := ["out"], stderrWrites := ["err"]
    waitErr := some (GoError.ExitError (ProcessState.exited 3))
    ctxFired := some GoError.DeadlineExceeded }

/-! ## Facts about the string primitives -/

namespace strings

theorem splitChars_of_not_mem (sep : Char) (cs : List Char) (h : sep ∉ cs) :
    splitChars sep cs = (cs, []) := by
  induction cs with
  | nil => rfl
  | cons c cs ih =>
    have hc : c ≠ sep := fun e => h (by simp [e])
    have hcs : sep ∉ cs := fun m => h (List.mem_cons_of_mem _ m)
    simp [splitChars, ih hcs, hc]

/-- Gluing the pieces back with the separator gives the text that was split. -/
theorem splitChars_glue (sep : Char) (cs : List Char) :
    (splitChars sep cs).1 ++ ((splitChars sep cs).2.map (fun q => sep :: q)).flatten = cs := by
  induction cs with
  | nil => rfl
  | cons c cs ih =>
    by_cases hc : c = sep
    · simp only [splitChars, hc, if_true, List.map_cons, List.flatten_cons, List.nil_append,
        List.cons_append]
      rw [ih]
    · simp only [splitChars, hc, if_false, List.cons_append]
      rw [ih]

/-- No piece of a split contains the separator. -/
theorem splitChars_pieces (sep : Char) (cs : List Char) :
    sep ∉ (splitChars sep cs).1 ∧ ∀ q ∈ (splitChars sep cs).2, sep ∉ q := by
  induction cs with
  | nil => simp [splitChars]
  | cons c cs ih =>
    by_cases hc : c = sep
    · simp only [splitChars, hc, if_true, List.not_mem_nil, not_false_eq_true, List.mem_cons,
        forall_eq_or_imp, true_and]
      exact ih
    · simp only [splitChars, hc, if_false, List.mem_cons, not_or]
      exact ⟨⟨fun e => hc e.symm, ih.1⟩, ih.2⟩

theorem Join_mk (sep : Char) (ps : List (List Char)) (p : List Char) :
    Join (String.mk p :: ps.map String.mk) (String.mk [sep])
      = String.mk (p ++ (ps.map (fun q => sep :: q)).flatten) := by
  induction ps generalizing p with
  | nil => simp [Join]
  | cons q qs ih =>
    simp only [List.map_cons, Join, ih q]
    apply String.ext
    simp [String.data_append]

/-- Joining the pieces of a split with the separator gives back the string that was
split. -/
theorem Join_Split (s : String) (sep : Char) : Join (Split s sep) (String.mk [sep]) = s := by
  unfold Split
  simp only []
  rw [Join_mk, splitChars_glue]

theorem Split_of_not_contains (s : String) (sep : Char) (h : Contains s sep = false) :
    Split s sep = [s] := by
  have hm : sep ∉ s.data := by
    simpa [Contains] using h
  simp [Split, splitChars_of_not_mem sep s.data hm]

theorem Split_pieces (s : String) (sep : Char) : ∀ p ∈ Split s sep, sep ∉ p.data := by
  intro p hp
  have h := splitChars_pieces sep s.data
  simp only [Split, List.mem_cons, List.mem_map] at hp
  rcases hp with rfl | ⟨q, hq, rfl⟩
  · exact h.1
  · exact h.2 q hq

/-- A split is its first piece followed by the other pieces. -/
theorem Split_head_drop (s : String) (sep : Char) :
    (Split s sep).headD "" :: (Split s sep).drop 1 = Split s sep := by
  simp [Split]

end strings

/-! ## Command resolution -/

/-- C1, as stated, fails: with `Shell = false`, the non-empty `Args = ["hello world"]` and
the `Command` `"/tmp/exec test/echo"` (a path with a space in it), `buildCommand` splits
`Command` and drops `Args`: it returns `"/tmp/exec"` with the arguments `["test/echo"]`,
not `Command` with `Args`. -/
theorem buildCommand_splits_command_despite_args :
    ({ Command := "/tmp/exec test/echo", Args := ["hello world"] } : ExecTask).Shell = false ∧
    ({ Command := "/tmp/exec test/echo", Args := ["hello world"] } : ExecTask).Args ≠ [] ∧
    ({ Command := "/tmp/exec test/echo", Args := ["hello world"] } : ExecTask).buildCommand
      = ("/tmp/exec", ["test/echo"]) ∧
    ({ Command := "/tmp/exec test/echo", Args := ["hello world"] } : ExecTask).buildCommand
      ≠ ("/tmp/exec test/echo", ["hello world"]) := by
  decide

/-- C1, amended: for every task with `Shell = false`, a non-empty `Args` list and a
`Command` that contains no space character, `buildCommand` returns `Command` unchanged as
the executable and `Args` unchanged as the argument vector. -/
theorem buildCommand_args_verbatim (et : ExecTask) (hShell : et.Shell = false)
    (_hArgs : et.Args ≠ []) (hSpace : ' ' ∉ et.Command.data) :
    et.buildCommand = (et.Command, et.Args) := by
  have hc : strings.Contains et.Command ' ' = false := by
    simpa [strings.Contains] using hSpace
  simp [ExecTask.buildCommand, hShell, hc]

/-- The amended C1 at the task `cat` with `Args = ["-b"]`. -/
theorem buildCommand_args_verbatim_witness :
    ({ Command := "cat", Args := ["-b"] } : ExecTask).Shell = false ∧
    ({ Command := "cat", Args := ["-b"] } : ExecTask).Args ≠ [] ∧
    ' ' ∉ ({ Command := "cat", Args := ["-b"] } : ExecTask).Command.data ∧
    ({ Command := "cat", Args := ["-b"] } : ExecTask).buildCommand = ("cat", ["-b"]) :=
  ⟨rfl, by decide, by decide,
    buildCommand_args_verbatim { Command := "cat", Args := ["-b"] } rfl (by decide) (by decide)⟩

/-- C2: for every task with `Shell = false` and empty `Args`, `buildCommand` returns the
first element of `Command` split on the space character as the executable and the
remaining elements, in order, as the argument vector. The executable and the arguments
are pieces without a space which, joined by single spaces, give `Command` back. A
`Command` without a space yields `Command` itself and an empty argument vector, and the
`Command` `"cat -b"` yields `"cat"` with the arguments `["-b"]`. -/
theorem buildCommand_noArgs_split (et : ExecTask) (hShell : et.Shell = false)
    (hArgs : et.Args = []) :
    et.buildCommand
        = ((strings.Split et.Command ' ').headD "", (strings.Split et.Command ' ').drop 1) ∧
    strings.Join (et.buildCommand.1 :: et.buildCommand.2) " " = et.Command ∧
    (∀ p ∈ et.buildCommand.1 :: et.buildCommand.2, ' ' ∉ p.data) ∧
    (' ' ∉ et.Command.data → et.buildCommand = (et.Command, [])) ∧
    { et with Command := "cat -b" }.buildCommand = ("cat", ["-b"]) := by
  have hmain : et.buildCommand
      = ((strings.Split et.Command ' ').headD "", (strings.Split et.Command ' ').drop 1) := by
    by_cases hc : strings.Contains et.Command ' ' = true
    · simp [ExecTask.buildCommand, hShell, hc]
    · have hc' : strings.Contains et.Command ' ' = false := by simpa using hc
      simp [ExecTask.buildCommand, hShell, hc', hArgs,
        strings.Split_of_not_contains et.Command ' ' hc']
  refine ⟨hmain, ?_, ?_, ?_, ?_⟩
  · rw [hmain]
    show strings.Join ((strings.Split et.Command ' ').headD "" ::
      (strings.Split et.Command ' ').drop 1) " " = et.Command
    rw [strings.Split_head_drop]
    exact strings.Join_Split et.Command ' '
  · rw [hmain]
    show ∀ p ∈ (strings.Split et.Command ' ').headD "" :: (strings.Split et.Command ' ').drop 1,
      ' ' ∉ p.data
    rw [strings.Split_head_drop]
    exact strings.Split_pieces et.Command ' '
  · intro hSpace
    have hc : strings.Contains et.Command ' ' = false := by
      simpa [strings.Contains] using hSpace
    simp [ExecTask.buildCommand, hShell, hc, hArgs]
  · have hc : strings.Contains "cat -b" ' ' = true := by decide
    have hs : strings.Split "cat -b" ' ' = ["cat", "-b"] := by decide
    simp [ExecTask.buildCommand, hShell, hc, hs]

/-- C2 at the task whose `Command` is `"ls -l /tmp"`. -/
theorem buildCommand_noArgs_split_witness :
    ({ Command := "ls -l /tmp" } : ExecTask).Shell = false ∧
    ({ Command := "ls -l /tmp" } : ExecTask).Args = [] ∧
    ({ Command := "ls -l /tmp" } : ExecTask).buildCommand = ("ls", ["-l", "/tmp"]) :=
  ⟨rfl, rfl,
    (buildCommand_noArgs_split { Command := "ls -l /tmp" } rfl rfl).1.trans (by decide)⟩

/-- C10: for every task with `Shell = true` and a non-empty `Args` list, the argument
vector of `buildCommand` has exactly two elements, `"-c"` and then the script, and the
script is `Command`, one space, and the elements of `Args` joined by single spaces, each
element verbatim. -/
theorem buildCommand_shell_args_script (et : ExecTask) (hShell : et.Shell = true)
    (hArgs : et.Args ≠ []) :
    et.buildCommand.2 = ["-c", et.Command ++ " " ++ strings.Join et.Args " "] ∧
    et.buildCommand.2.length = 2 := by
  have hl : et.Args.length ≠ 0 := by
    simpa [List.length_eq_zero] using hArgs
  simp [ExecTask.buildCommand, hShell, hl, fmt.Sprintf_s_s]

/-- C10 at the task `/bin/ls` with the arguments `/` and `my dir`, run through the
shell: the script is `/bin/ls / my dir`, the argument with a space is not quoted. -/
theorem buildCommand_shell_args_script_witness :
    ({ Command := "/bin/ls", Args := ["/", "my dir"], Shell := true } : ExecTask).Shell = true ∧
    ({ Command := "/bin/ls", Args := ["/", "my dir"], Shell := true } : ExecTask).Args ≠ [] ∧
    ({ Command := "/bin/ls", Args := ["/", "my dir"], Shell := true } : ExecTask).buildCommand.2
      = ["-c", "/bin/ls / my dir"] :=
  ⟨rfl, by decide,
    (buildCommand_shell_args_script
      { Command := "/bin/ls", Args := ["/", "my dir"], Shell := true } rfl (by decide)).1.trans
      (by decide)⟩

/-! ## Environment resolution -/

theorem strings.splitChars_fst (sep : Char) (cs : List Char) :
    (strings.splitChars sep cs).1 = cs.takeWhile (fun c => decide (c ≠ sep)) := by
  induction cs with
  | nil => rfl
  | cons c cs ih =>
    by_cases hc : c = sep
    · simp [strings.splitChars, hc]
    · simp [strings.splitChars, hc, ih]

/-- The key of an entry is its text before the first `=` (the whole entry when it has
no `=`). -/
theorem envKey_eq_takeWhile (env : String) :
    envKey env = String.mk (env.data.takeWhile (fun c => decide (c ≠ '='))) := by
  simp [envKey, strings.Split, strings.splitChars_fst]

theorem lookup_isSome_iff (k : String) (m : List (String × Bool)) :
    (m.lookup k).isSome = true ↔ k ∈ m.map Prod.fst := by
  induction m with
  | nil => simp
  | cons kv m ih =>
    obtain ⟨k', v⟩ := kv
    by_cases hk : k = k'
    · subst hk
      simp [List.lookup]
    · have hb : (k == k') = false := by simpa using hk
      simp [List.lookup, hb, ih, hk]

/-- The first loop of `EnvVars`: the entries are appended in order and every key is
recorded. -/
theorem EnvVars_loop1 (env : List String) (acc : List String) (m : List (String × Bool)) :
    env.foldl
      (fun (st : List String × List (String × Bool)) e =>
        (st.1 ++ [e], ((strings.Split e '=').headD "", true) :: st.2))
      (acc, m)
    = (acc ++ env, (env.map (fun e => (envKey e, true))).reverse ++ m) := by
  induction env generalizing acc m with
  | nil => simp
  | cons e env ih =>
    simp only [List.foldl_cons, ih]
    simp [envKey]

/-- The second loop of `EnvVars`: the inherited entries whose key was not recorded are
appended in order. -/
theorem EnvVars_loop2 (environ : List String) (acc : List String) (m : List (String × Bool)) :
    environ.foldl
      (fun envVars e =>
        if (m.lookup ((strings.Split e '=').headD "")).isSome then envVars else envVars ++ [e])
      acc
    = acc ++ environ.filter (fun e => decide (envKey e ∉ m.map Prod.fst)) := by
  induction environ generalizing acc with
  | nil => simp
  | cons e environ ih =>
    rw [List.foldl_cons, ih]
    by_cases hk : (m.lookup ((strings.Split e '=').headD "")).isSome = true
    · have hmem : envKey e ∈ m.map Prod.fst := (lookup_isSome_iff _ m).1 hk
      have hd : decide (envKey e ∉ m.map Prod.fst) = false :=
        decide_eq_false (fun h => h hmem)
      rw [if_pos hk, List.filter_cons, hd]
      rfl
    · have hmem : envKey e ∉ m.map Prod.fst := fun h => hk ((lookup_isSome_iff _ m).2 h)
      have hd : decide (envKey e ∉ m.map Prod.fst) = true :=
        decide_eq_true hmem
      rw [if_neg hk, List.filter_cons, hd]
      simp

/-- Closed form of `EnvVars` for a non-empty override list. -/
theorem EnvVars_of_ne_nil (et : ExecTask) (E : List String) (h : et.Env ≠ []) :
    et.EnvVars E = et.Env ++ E.filter (fun e => decide (envKey e ∉ et.Env.map envKey)) := by
  have hl : et.Env.length ≠ 0 := by
    simpa [List.length_eq_zero] using h
  unfold ExecTask.EnvVars
  rw [if_neg hl]
  simp only []
  rw [EnvVars_loop1, EnvVars_loop2]
  simp [Function.comp_def]

/-- C3: with the inherited environment `E` as an input, `EnvVars` returns `E` unchanged
when `Env` is empty; otherwise it returns the entries of `Env` in their order followed by
exactly those entries of `E`, in the order of `E`, whose key (the text before the first
`=`) is not the key of an entry of `Env`. With `Env = ["K=1"]` and an `E` that contains
`"K=old"` and `"OTHER=x"`, the only entry of the result with key `K` is `"K=1"`, and
`"OTHER=x"` is an entry of the result. -/
theorem EnvVars_overrides_then_inherited (et : ExecTask) (E : List String) :
    (et.Env = [] → et.EnvVars E = E) ∧
    (et.Env ≠ [] →
      et.EnvVars E = et.Env ++ E.filter (fun e => decide (envKey e ∉ et.Env.map envKey))) ∧
    (∀ e, envKey e = String.mk (e.data.takeWhile (fun c => decide (c ≠ '=')))) ∧
    (et.Env = ["K=1"] → "K=old" ∈ E → "OTHER=x" ∈ E →
      (et.EnvVars E).filter (fun e => decide (envKey e = "K")) = ["K=1"] ∧
      "OTHER=x" ∈ et.EnvVars E) := by
  refine ⟨?_, EnvVars_of_ne_nil et E, envKey_eq_takeWhile, ?_⟩
  · intro h
    simp [ExecTask.EnvVars, h]
  · intro hEnv _ hOther
    have hne : et.Env ≠ [] := by simp [hEnv]
    have hK : envKey "K=1" = "K" := by decide
    have hO : envKey "OTHER=x" = "OTHER" := by decide
    rw [EnvVars_of_ne_nil et E hne, hEnv]
    constructor
    · simp only [List.map_cons, List.map_nil, List.mem_singleton, hK, List.filter_append,
        List.filter_filter]
      have h1 : List.filter (fun e => decide (envKey e = "K")) ["K=1"] = ["K=1"] := by
        simp [List.filter_cons, hK]
      have h2 : List.filter (fun e => decide (envKey e = "K") && decide (¬ envKey e = "K")) E
          = [] := by
        simp
      rw [h1, h2]
      rfl
    · have hne2 : ("OTHER" : String) ≠ "K" := by decide
      simp [hK, hO, hOther, hne2]

/-- C3 at `Env = ["K=1"]` and the inherited environment `K=old`, `OTHER=x`, `PATH=/bin`. -/
theorem EnvVars_overrides_then_inherited_witness :
    ({ Env := ["K=1"] } : ExecTask).EnvVars ["K=old", "OTHER=x", "PATH=/bin"]
        = ["K=1", "OTHER=x", "PATH=/bin"] ∧
    (({ Env := ["K=1"] } : ExecTask).EnvVars ["K=old", "OTHER=x", "PATH=/bin"]).filter
        (fun e => decide (envKey e = "K")) = ["K=1"] ∧
    "OTHER=x" ∈ ({ Env := ["K=1"] } : ExecTask).EnvVars ["K=old", "OTHER=x", "PATH=/bin"] :=
  ⟨by decide,
    (EnvVars_overrides_then_inherited { Env := ["K=1"] } ["K=old", "OTHER=x", "PATH=/bin"]).2.2.2
      rfl (by decide) (by decide)⟩

/-! ## Execute -/

/-- The early return: the context has fired when `Execute` is entered. -/
theorem Execute_of_ctx_fired (et : ExecTask) (w : World) (e : GoError)
    (h : w.ctxErrEntry = some e) :
    (et.Execute w).res = { ExitCode := -1, Cancelled := decide (e = GoError.Canceled) } ∧
    (et.Execute w).err = some e ∧
    (et.Execute w).eff.startCalled = none ∧
    (et.Execute w).eff.osStdout = [] ∧ (et.Execute w).eff.osStderr = [] ∧
    (et.Execute w).eff.sinkStdout = [] ∧ (et.Execute w).eff.sinkStderr = [] := by
  simp [ExecTask.Execute, h]

/-- The return on a failed `Start`. -/
theorem Execute_of_start_failed (et : ExecTask) (w : World) (e : GoError)
    (hEntry : w.ctxErrEntry = none) (hStart : w.startErr = some e) :
    (et.Execute w).res = {} ∧ (et.Execute w).err = some e := by
  simp [ExecTask.Execute, hEntry, hStart]

/-- The final return, after `Start` succeeded and `Wait` returned. A stream without a
writer of the caller is captured whole; a stream with one is not captured. -/
theorem Execute_of_waited (et : ExecTask) (w : World)
    (hEntry : w.ctxErrEntry = none) (hStart : w.startErr = none) :
    (et.Execute w).res.Stdout = (if et.StdOut = none then String.join w.stdoutWrites else "") ∧
    (et.Execute w).res.Stderr = (if et.StdErr = none then String.join w.stderrWrites else "") ∧
    (et.Execute w).res.ExitCode
      = (match w.waitErr with
        | some (GoError.ExitError state) => state.ExitCode
        | _ => 0) ∧
    (et.Execute w).res.Cancelled = decide (w.ctxErrExit = some GoError.Canceled) ∧
    (et.Execute w).err = w.ctxErrExit := by
  have hj : String.join [] = "" := rfl
  refine ⟨?_, ?_, ?_, ?_, ?_⟩
  · cases hO : et.StdOut <;> cases hS : et.StreamStdio <;>
      simp [ExecTask.Execute, hEntry, hStart, hO, hS, delivered, bufferString, hj]
  · cases hE : et.StdErr <;> cases hS : et.StreamStdio <;>
      simp [ExecTask.Execute, hEntry, hStart, hE, hS, delivered, bufferString, hj]
  · simp [ExecTask.Execute, hEntry, hStart]
  · simp [ExecTask.Execute, hEntry, hStart]
  · simp [ExecTask.Execute, hEntry, hStart]

/-- C4, as stated, fails: the process of `lsMissing` starts and exits with status 2 while
the context has not fired, and the error `Execute` returns is nil, not a failure that
carries the status. -/
theorem Execute_nonzero_exit_returns_nil :
    exitsWith2.ctxErrEntry = none ∧ exitsWith2.startErr = none ∧
    exitsWith2.waitErr = some (GoError.ExitError (ProcessState.exited 2)) ∧
    (lsMissing.Execute exitsWith2).res.ExitCode = 2 ∧
    (lsMissing.Execute exitsWith2).err = none := by
  decide

/-- C4, amended: for every task whose process starts and then exits with a non-zero
status, the result's `ExitCode` is the child's status, its `Stdout` and `Stderr` hold the
captured output (all the child wrote to a stream without a writer of the caller, the
empty string otherwise), and the error returned is `ctx.Err()` on return, nil when the
context has not fired: it does not carry the status. For every task whose process exits
normally the `ExitCode` is 0 and the error is again `ctx.Err()`, nil when the context has
not fired. -/
theorem Execute_exit_status_with_ctx_error (et : ExecTask) (w : World)
    (hEntry : w.ctxErrEntry = none) (hStart : w.startErr = none) :
    (∀ status : Nat, status ≠ 0 →
      w.waitErr = some (GoError.ExitError (ProcessState.exited status)) →
      (et.Execute w).res.ExitCode = status ∧
      (et.Execute w).res.Stdout
        = (if et.StdOut = none then String.join w.stdoutWrites else "") ∧
      (et.Execute w).res.Stderr
        = (if et.StdErr = none then String.join w.stderrWrites else "") ∧
      (et.Execute w).err = w.ctxErrExit ∧
      (w.ctxErrExit = none → (et.Execute w).err = none)) ∧
    (w.waitErr = none →
      (et.Execute w).res.ExitCode = 0 ∧
      (et.Execute w).err = w.ctxErrExit ∧
      (w.ctxErrExit = none → (et.Execute w).err = none)) := by
  obtain ⟨hOut, hErr, hCode, _, hRet⟩ := Execute_of_waited et w hEntry hStart
  refine ⟨?_, ?_⟩
  · intro status _ hWait
    refine ⟨?_, hOut, hErr, hRet, fun h => hRet.trans h⟩
    rw [hCode, hWait]
    rfl
  · intro hWait
    refine ⟨?_, hRet, fun h => hRet.trans h⟩
    rw [hCode, hWait]

/-- The amended C4 at `lsMissing`, whose process exits with status 2. -/
theorem Execute_exit_status_with_ctx_error_witness :
    exitsWith2.ctxErrEntry = none ∧ exitsWith2.startErr = none ∧
    (2 : Nat) ≠ 0 ∧
    exitsWith2.waitErr = some (GoError.ExitError (ProcessState.exited 2)) ∧
    ((lsMissing.Execute exitsWith2).res.ExitCode = (2 : Nat) ∧
      (lsMissing.Execute exitsWith2).res.Stdout
        = (if lsMissing.StdOut = none then String.join exitsWith2.stdoutWrites else "") ∧
      (lsMissing.Execute exitsWith2).res.Stderr
        = (if lsMissing.StdErr = none then String.join exitsWith2.stderrWrites else "") ∧
      (lsMissing.Execute exitsWith2).err = exitsWith2.ctxErrExit ∧
      (exitsWith2.ctxErrExit = none → (lsMissing.Execute exitsWith2).err = none)) :=
  ⟨rfl, rfl, by decide, rfl,
    (Execute_exit_status_with_ctx_error lsMissing exitsWith2 rfl rfl).1 2 (by decide) rfl⟩

/-- C5, as stated, fails: `lsMissingToSink` supplies its own stderr writer; its process
starts, writes to stderr and exits with status 2 while the context has not fired, and
the result's `Stderr` is empty, not the text the process wrote. -/
theorem Execute_stderr_sink_leaves_Stderr_empty :
    exitsWith2.ctxErrEntry = none ∧ exitsWith2.startErr = none ∧
    exitsWith2.waitErr = some (GoError.ExitError (ProcessState.exited 2)) ∧
    exitsWith2.ctxErrExit = none ∧
    String.join exitsWith2.stderrWrites
      = "ls: cannot access '/unknown/location/should/fail': No such file or directory\n" ∧
    (lsMissingToSink.Execute exitsWith2).res.Stderr = "" ∧
    (lsMissingToSink.Execute exitsWith2).eff.sinkStderr = exitsWith2.stderrWrites := by
  decide

/-- C5, amended: for every task without a stderr writer of its own whose process starts
and exits with a non-zero status while the context has not fired, `Execute` returns a
nil error and the result's `Stderr` holds the text the process wrote to stderr; `Stdout`
is empty when the process wrote nothing to stdout. -/
theorem Execute_nonzero_exit_nil_error (et : ExecTask) (w : World) (status : Nat)
    (hSink : et.StdErr = none)
    (hEntry : w.ctxErrEntry = none) (hStart : w.startErr = none) (_hStatus : status ≠ 0)
    (_hWait : w.waitErr = some (GoError.ExitError (ProcessState.exited status)))
    (hExit : w.ctxErrExit = none) :
    (et.Execute w).err = none ∧
    (et.Execute w).res.Stderr = String.join w.stderrWrites ∧
    (w.stdoutWrites = [] → (et.Execute w).res.Stdout = "") := by
  obtain ⟨hOut, hErr, _, _, hRet⟩ := Execute_of_waited et w hEntry hStart
  refine ⟨hRet.trans hExit, ?_, ?_⟩
  · rw [hErr, if_pos hSink]
  · intro hNone
    rw [hOut, hNone]
    split <;> rfl

/-- The amended C5 at `lsMissing`: nil error, the whole stderr text, empty stdout. -/
theorem Execute_nonzero_exit_nil_error_witness :
    lsMissing.StdErr = none ∧ exitsWith2.ctxErrEntry = none ∧ exitsWith2.startErr = none ∧
    (2 : Nat) ≠ 0 ∧
    exitsWith2.waitErr = some (GoError.ExitError (ProcessState.exited 2)) ∧
    exitsWith2.ctxErrExit = none ∧
    ((lsMissing.Execute exitsWith2).err = none ∧
      (lsMissing.Execute exitsWith2).res.Stderr = String.join exitsWith2.stderrWrites ∧
      (exitsWith2.stdoutWrites = [] → (lsMissing.Execute exitsWith2).res.Stdout = "")) :=
  ⟨rfl, rfl, rfl, by decide, rfl, rfl,
    Execute_nonzero_exit_nil_error lsMissing exitsWith2 2 rfl rfl rfl (by decide) rfl rfl⟩

/-- C6, as stated, fails: when the context has fired before the call because its
deadline expired, `Execute` returns `ExitCode = -1` and the context's error, but
`Cancelled` is false. -/
theorem Execute_deadline_before_start_not_Cancelled :
    deadlinePassed.ctxErrEntry = some GoError.DeadlineExceeded ∧
    (lsMissing.Execute deadlinePassed).err = some GoError.DeadlineExceeded ∧
    (lsMissing.Execute deadlinePassed).res.ExitCode = -1 ∧
    (lsMissing.Execute deadlinePassed).res.Cancelled = false := by
  decide

/-- C6, amended: for every task and every context that has already fired before
`Execute` is called, `Execute` returns a result with `ExitCode = -1` and empty `Stdout`
and `Stderr`, returns the context's error, and never calls `Start` (nothing reaches any
writer); `Cancelled` is true when the context was cancelled explicitly
(`context.Canceled`) and false otherwise, in particular when its deadline expired. -/
theorem Execute_ctx_fired_before_start (et : ExecTask) (w : World) (e : GoError)
    (h : w.ctxErrEntry = some e) :
    (et.Execute w).res.ExitCode = -1 ∧
    (et.Execute w).res.Stdout = "" ∧ (et.Execute w).res.Stderr = "" ∧
    (et.Execute w).err = some e ∧
    (et.Execute w).eff.startCalled = none ∧
    (et.Execute w).eff.osStdout = [] ∧ (et.Execute w).eff.osStderr = [] ∧
    (et.Execute w).eff.sinkStdout = [] ∧ (et.Execute w).eff.sinkStderr = [] ∧
    ((et.Execute w).res.Cancelled = true ↔ e = GoError.Canceled) ∧
    (e = GoError.DeadlineExceeded → (et.Execute w).res.Cancelled = false) := by
  obtain ⟨hRes, hErr, hStart, h1, h2, h3, h4⟩ := Execute_of_ctx_fired et w e h
  refine ⟨?_, ?_, ?_, hErr, hStart, h1, h2, h3, h4, ?_, ?_⟩
  · rw [hRes]
  · rw [hRes]
  · rw [hRes]
  · rw [hRes]
    simp
  · intro he
    rw [hRes, he]
    rfl

/-- The amended C6 at a context that was cancelled before the call. -/
theorem Execute_ctx_fired_before_start_witness :
    cancelledBefore.ctxErrEntry = some GoError.Canceled ∧
    (lsMissing.Execute cancelledBefore).res.ExitCode = -1 ∧
    (lsMissing.Execute cancelledBefore).err = some GoError.Canceled ∧
    (lsMissing.Execute cancelledBefore).eff.startCalled = none ∧
    (lsMissing.Execute cancelledBefore).res.Cancelled = true :=
  have h := Execute_ctx_fired_before_start lsMissing cancelledBefore GoError.Canceled rfl
  ⟨rfl, h.1, h.2.2.2.1, h.2.2.2.2.1, h.2.2.2.2.2.2.2.2.2.1.2 rfl⟩

/-- C7, as stated, fails: the deadline of the context expires while the process runs;
`Execute` returns after `Wait`, the context has fired at that moment (`Execute` returns
its error), and `Cancelled` is false. -/
theorem Execute_deadline_during_run_not_Cancelled :
    timedOutRun.ctxErrEntry = none ∧ timedOutRun.startErr = none ∧
    timedOutRun.ctxErrExit = some GoError.DeadlineExceeded ∧
    (lsMissing.Execute timedOutRun).err = some GoError.DeadlineExceeded ∧
    (lsMissing.Execute timedOutRun).res.Cancelled = false := by
  decide

/-- C7, amended: when `Execute` returns before the start or after the process has been
waited for, `Cancelled` is true if and only if `ctx.Err()` at that moment is
`context.Canceled` (an expired deadline leaves it false), whether or not the child had
already finished; when `Execute` returns on a start failure, `Cancelled` is false. -/
theorem Execute_Cancelled_iff_Canceled (et : ExecTask) (w : World) :
    (∀ e, w.ctxErrEntry = some e →
      ((et.Execute w).res.Cancelled = true ↔ e = GoError.Canceled)) ∧
    (∀ e, w.ctxErrEntry = none → w.startErr = some e →
      (et.Execute w).res.Cancelled = false) ∧
    (w.ctxErrEntry = none → w.startErr = none →
      ((et.Execute w).res.Cancelled = true ↔ w.ctxErrExit = some GoError.Canceled)) := by
  refine ⟨?_, ?_, ?_⟩
  · intro e h
    rw [(Execute_of_ctx_fired et w e h).1]
    simp
  · intro e hEntry hStart
    rw [(Execute_of_start_failed et w e hEntry hStart).1]
  · intro hEntry hStart
    rw [(Execute_of_waited et w hEntry hStart).2.2.2.1]
    simp

/-- The amended C7 at a context cancelled while the process runs. -/
theorem Execute_Cancelled_iff_Canceled_witness :
    cancelledRun.ctxErrEntry = none ∧ cancelledRun.startErr = none ∧
    cancelledRun.ctxErrExit = some GoError.Canceled ∧
    (lsMissing.Execute cancelledRun).res.Cancelled = true :=
  ⟨rfl, rfl, rfl, ((Execute_Cancelled_iff_Canceled lsMissing cancelledRun).2.2 rfl rfl).2 rfl⟩

/-- C8: for every task whose process has started, if the context is cancelled while the
process is still running (`exec.CommandContext` then kills the child, so on Unix `Wait`
reports a process terminated by a signal, and `ctx.Err()` is `context.Canceled` on
return), `Execute`
returns `ExitCode = -1` and `Cancelled = true`, the error `context.Canceled`, and
`Stdout` and `Stderr` equal to what had been written to the capture buffers before the
process was terminated: all the child wrote to a stream without a writer of the caller.
The partial output is kept. -/
theorem Execute_cancelled_during_run (et : ExecTask) (w : World) (signal : Nat)
    (hEntry : w.ctxErrEntry = none) (hStart : w.startErr = none)
    (hWait : w.waitErr = some (GoError.ExitError (ProcessState.signaled signal)))
    (hExit : w.ctxErrExit = some GoError.Canceled) :
    (et.Execute w).res.ExitCode = -1 ∧
    (et.Execute w).res.Cancelled = true ∧
    (et.Execute w).err = some GoError.Canceled ∧
    (et.Execute w).res.Stdout = (if et.StdOut = none then String.join w.stdoutWrites else "") ∧
    (et.Execute w).res.Stderr = (if et.StdErr = none then String.join w.stderrWrites else "") := by
  obtain ⟨hOut, hErr, hCode, hCanc, hRet⟩ := Execute_of_waited et w hEntry hStart
  refine ⟨?_, ?_, hRet.trans hExit, hOut, hErr⟩
  · rw [hCode, hWait]
    rfl
  · rw [hCanc, hExit]
    rfl

/-- C8 at `lsMissing` cancelled after the child wrote `"partial"` to stdout. -/
theorem Execute_cancelled_during_run_witness :
    cancelledRun.ctxErrEntry = none ∧ cancelledRun.startErr = none ∧
    cancelledRun.waitErr = some (GoError.ExitError (ProcessState.signaled 9)) ∧
    cancelledRun.ctxErrExit = some GoError.Canceled ∧
    (lsMissing.Execute cancelledRun).res
      = { Stdout := "partial", Stderr := "", ExitCode := -1, Cancelled := true } ∧
    (lsMissing.Execute cancelledRun).res.ExitCode = -1 ∧
    (lsMissing.Execute cancelledRun).err = some GoError.Canceled :=
  have h := Execute_cancelled_during_run lsMissing cancelledRun 9 rfl rfl rfl rfl
  ⟨rfl, rfl, rfl, rfl, by decide, h.1, h.2.2.1⟩

/-- C9: for every task whose process fails to start, `Execute` returns the zero-value
result (`ExitCode` 0, empty `Stdout` and `Stderr`, `Cancelled` false) together with
exactly the error `Start` reported. -/
theorem Execute_start_failure (et : ExecTask) (w : World) (e : GoError)
    (hEntry : w.ctxErrEntry = none) (hStart : w.startErr = some e) :
    (et.Execute w).res = { Stdout := "", Stderr := "", ExitCode := 0, Cancelled := false } ∧
    (et.Execute w).err = some e := by
  exact Execute_of_start_failed et w e hEntry hStart

/-- C9 at an executable that does not exist. -/
theorem Execute_start_failure_witness :
    startFails.ctxErrEntry = none ∧
    startFails.startErr = some (GoError.other
      "fork/exec /bin/go_execute_you_cant_find_me: no such file or directory") ∧
    (({ Command := "/bin/go_execute_you_cant_find_me /" } : ExecTask).Execute startFails).res
      = { Stdout := "", Stderr := "", ExitCode := 0, Cancelled := false } ∧
    (({ Command := "/bin/go_execute_you_cant_find_me /" } : ExecTask).Execute startFails).err
      = some (GoError.other
        "fork/exec /bin/go_execute_you_cant_find_me: no such file or directory") :=
  ⟨rfl, rfl,
    Execute_start_failure { Command := "/bin/go_execute_you_cant_find_me /" } startFails _
      rfl rfl⟩


/-! ## Shell mode -/

/-- In shell mode without arguments the split and join pass gives `Command` back: the
script is `Command`, character for character. -/
theorem buildCommand_shell_noArgs_script (et : ExecTask) (hShell : et.Shell = true)
    (hArgs : et.Args = []) : et.buildCommand.2 = ["-c", et.Command] := by
  have hj : strings.Join (strings.Split et.Command ' ') " " = et.Command :=
    strings.Join_Split et.Command ' '
  simp [ExecTask.buildCommand, hShell, hArgs, hj]

/-- C11 fails on the code: for the task with `Shell = true`, no `Args` and the `Command`
`"ls  -l   /tmp"`, the script that `buildCommand` places after `"-c"` is
`"ls  -l   /tmp"`: the runs of spaces are kept, the script has adjacent spaces. -/
theorem buildCommand_shell_script_keeps_space_runs :
    ({ Command := "ls  -l   /tmp", Shell := true } : ExecTask).buildCommand
      = ("/bin/bash", ["-c", "ls  -l   /tmp"]) := by
  decide

theorem dropWhile_eq_self_of_head {α : Type} (p : α → Bool) (l : List α)
    (h : ∀ c, l.head? = some c → p c = false) : l.dropWhile p = l := by
  cases l with
  | nil => rfl
  | cons c cs =>
    have hc : p c = false := h c rfl
    simp [List.dropWhile_cons, hc]

/-- `TrimSpace` leaves a string that neither starts nor ends with white space as it is. -/
theorem strings.TrimSpace_eq_self (s : String)
    (hHead : ∀ c, s.data.head? = some c → strings.isSpace c = false)
    (hLast : ∀ c, s.data.getLast? = some c → strings.isSpace c = false) :
    strings.TrimSpace s = s := by
  unfold strings.TrimSpace
  rw [dropWhile_eq_self_of_head strings.isSpace s.data hHead]
  rw [dropWhile_eq_self_of_head strings.isSpace s.data.reverse
    (by simpa [List.head?_reverse] using hLast)]
  simp

/-- C12, as stated, fails: with `Shell = true` and the non-empty shell path `" /bin/sh"`
the executable is `"/bin/sh"`, not the path as given, and with the non-empty shell path
`" "` it is the default `"/bin/bash"`. -/
theorem buildCommand_shell_path_trimmed :
    ({ Command := "ls", Shell := true, ShallPath := " /bin/sh" } : ExecTask).ShallPath ≠ "" ∧
    ({ Command := "ls", Shell := true, ShallPath := " /bin/sh" } : ExecTask).buildCommand.1
      = "/bin/sh" ∧
    ({ Command := "ls", Shell := true, ShallPath := " /bin/sh" } : ExecTask).buildCommand.1
      ≠ " /bin/sh" ∧
    ({ Command := "ls", Shell := true, ShallPath := " " } : ExecTask).ShallPath ≠ "" ∧
    ({ Command := "ls", Shell := true, ShallPath := " " } : ExecTask).buildCommand.1
      = "/bin/bash" := by
  decide

/-- C12, amended: for every task with `Shell = true`, the executable returned by
`buildCommand` is the shell path with its leading and trailing white space removed
whenever that trimmed string is non-empty, hence the shell path exactly as given when it
is non-empty and neither starts nor ends with white space; it is the default
`"/bin/bash"` when the trimmed shell path is empty, in particular when the shell path is
empty. -/
theorem buildCommand_shell_executable (et : ExecTask) (hShell : et.Shell = true) :
    (strings.TrimSpace et.ShallPath ≠ "" →
      et.buildCommand.1 = strings.TrimSpace et.ShallPath) ∧
    (et.ShallPath ≠ "" →
      (∀ c, et.ShallPath.data.head? = some c → strings.isSpace c = false) →
      (∀ c, et.ShallPath.data.getLast? = some c → strings.isSpace c = false) →
      et.buildCommand.1 = et.ShallPath) ∧
    (strings.TrimSpace et.ShallPath = "" → et.buildCommand.1 = "/bin/bash") ∧
    (et.ShallPath = "" → et.buildCommand.1 = "/bin/bash") := by
  have hTrim : strings.TrimSpace et.ShallPath ≠ "" →
      et.buildCommand.1 = strings.TrimSpace et.ShallPath := by
    intro h
    by_cases hA : et.Args.length = 0 <;> simp [ExecTask.buildCommand, hShell, hA, h]
  have hDefault : strings.TrimSpace et.ShallPath = "" → et.buildCommand.1 = "/bin/bash" := by
    intro h
    by_cases hA : et.Args.length = 0 <;> simp [ExecTask.buildCommand, hShell, hA, h]
  refine ⟨hTrim, ?_, hDefault, ?_⟩
  · intro hne hHead hLast
    have hEq := strings.TrimSpace_eq_self et.ShallPath hHead hLast
    rw [hTrim (by rw [hEq]; exact hne), hEq]
  · intro hEmpty
    apply hDefault
    rw [hEmpty]
    rfl

/-- The amended C12 at the shell paths `/bin/sh` and the empty one. -/
theorem buildCommand_shell_executable_witness :
    ({ Command := "ls", Shell := true, ShallPath := "/bin/sh" } : ExecTask).Shell = true ∧
    ({ Command := "ls", Shell := true, ShallPath := "/bin/sh" } : ExecTask).buildCommand.1
      = "/bin/sh" ∧
    ({ Command := "ls", Shell := true } : ExecTask).buildCommand.1 = "/bin/bash" :=
  ⟨rfl,
    (buildCommand_shell_executable { Command := "ls", Shell := true, ShallPath := "/bin/sh" }
      rfl).2.1 (by decide) (by decide) (by decide),
    (buildCommand_shell_executable { Command := "ls", Shell := true } rfl).2.2.2 rfl⟩

/-! ## Writers of the caller -/

/-- The writers `Execute` wires to the child, read off the command it starts. -/
theorem Execute_startCalled_writers (et : ExecTask) (w : World) (cmd : Cmd)
    (h : (et.Execute w).eff.startCalled = some cmd) :
    cmd.Stdout = (match et.StdOut with
      | some s => [Dest.sink s]
      | none => if et.StreamStdio then [Dest.osStream, Dest.buffer] else [Dest.buffer]) ∧
    cmd.Stderr = (match et.StdErr with
      | some s => [Dest.sink s]
      | none => if et.StreamStdio then [Dest.osStream, Dest.buffer] else [Dest.buffer]) := by
  cases hE : w.ctxErrEntry with
  | some e => simp [ExecTask.Execute, hE] at h
  | none =>
    cases hS : w.startErr <;> simp [ExecTask.Execute, hE, hS] at h <;> subst h <;> simp

/-- C13: for every task that supplies its own stdout writer, whatever `StreamStdio` is,
the writer wired to the child's stdout has that writer as its only destination, so every
chunk the child writes to stdout reaches it and nothing reaches the capture buffer or
`os.Stdout`, and the result's `Stdout` is the empty string; the same holds for `StdErr`
and `Stderr`. Setting a writer for one stream changes neither the destinations nor the
captured text of the other stream. -/
theorem Execute_caller_writers (et : ExecTask) (w : World) (s : SinkId) :
    (et.StdOut = some s →
      (∀ cmd, (et.Execute w).eff.startCalled = some cmd → cmd.Stdout = [Dest.sink s]) ∧
      (w.ctxErrEntry = none → w.startErr = none →
        (et.Execute w).eff.sinkStdout = w.stdoutWrites) ∧
      (et.Execute w).eff.osStdout = [] ∧
      (et.Execute w).res.Stdout = "") ∧
    (et.StdErr = some s →
      (∀ cmd, (et.Execute w).eff.startCalled = some cmd → cmd.Stderr = [Dest.sink s]) ∧
      (w.ctxErrEntry = none → w.startErr = none →
        (et.Execute w).eff.sinkStderr = w.stderrWrites) ∧
      (et.Execute w).eff.osStderr = [] ∧
      (et.Execute w).res.Stderr = "") ∧
    (({ et with StdOut := some s }.Execute w).res.Stderr = (et.Execute w).res.Stderr ∧
      ({ et with StdOut := some s }.Execute w).eff.osStderr = (et.Execute w).eff.osStderr ∧
      ({ et with StdOut := some s }.Execute w).eff.sinkStderr = (et.Execute w).eff.sinkStderr ∧
      ({ et with StdOut := some s }.Execute w).eff.startCalled.map Cmd.Stderr
        = (et.Execute w).eff.startCalled.map Cmd.Stderr) ∧
    (({ et with StdErr := some s }.Execute w).res.Stdout = (et.Execute w).res.Stdout ∧
      ({ et with StdErr := some s }.Execute w).eff.osStdout = (et.Execute w).eff.osStdout ∧
      ({ et with StdErr := some s }.Execute w).eff.sinkStdout = (et.Execute w).eff.sinkStdout ∧
      ({ et with StdErr := some s }.Execute w).eff.startCalled.map Cmd.Stdout
        = (et.Execute w).eff.startCalled.map Cmd.Stdout) := by
  have hj : String.join [] = "" := rfl
  refine ⟨?_, ?_, ?_, ?_⟩
  · intro hSink
    refine ⟨?_, ?_, ?_, ?_⟩
    · intro cmd h
      rw [(Execute_startCalled_writers et w cmd h).1, hSink]
    · intro hE hS
      simp [ExecTask.Execute, hE, hS, hSink, delivered, Dest.isSink]
    · cases hE : w.ctxErrEntry <;> cases hS : w.startErr <;>
        simp [ExecTask.Execute, hE, hS, hSink, delivered]
    · cases hE : w.ctxErrEntry <;> cases hS : w.startErr <;>
        simp [ExecTask.Execute, hE, hS, hSink, delivered, bufferString, hj]
  · intro hSink
    refine ⟨?_, ?_, ?_, ?_⟩
    · intro cmd h
      rw [(Execute_startCalled_writers et w cmd h).2, hSink]
    · intro hE hS
      simp [ExecTask.Execute, hE, hS, hSink, delivered, Dest.isSink]
    · cases hE : w.ctxErrEntry <;> cases hS : w.startErr <;>
        simp [ExecTask.Execute, hE, hS, hSink, delivered]
    · cases hE : w.ctxErrEntry <;> cases hS : w.startErr <;>
        simp [ExecTask.Execute, hE, hS, hSink, delivered, bufferString, hj]
  · cases hE : w.ctxErrEntry <;> cases hS : w.startErr <;>
      simp [ExecTask.Execute, hE, hS]
  · cases hE : w.ctxErrEntry <;> cases hS : w.startErr <;>
      simp [ExecTask.Execute, hE, hS]

/-- C13 at a task that streams and has its own stdout writer: stdout reaches only that
writer, stderr is still captured and copied to `os.Stderr`. -/
theorem Execute_caller_writers_witness :
    echoToSink.StdOut = some ⟨7⟩ ∧
    writesBoth.ctxErrEntry = none ∧ writesBoth.startErr = none ∧
    (echoToSink.Execute writesBoth).eff.sinkStdout = ["hi\n"] ∧
    (echoToSink.Execute writesBoth).eff.osStdout = [] ∧
    (echoToSink.Execute writesBoth).res.Stdout = "" ∧
    (echoToSink.Execute writesBoth).res.Stderr = "warn\n" ∧
    (echoToSink.Execute writesBoth).eff.osStderr = ["warn\n"] :=
  have h := (Execute_caller_writers echoToSink writesBoth ⟨7⟩).1 rfl
  ⟨rfl, rfl, rfl, h.2.1 rfl rfl, h.2.2.1, h.2.2.2, by decide, by decide⟩

/-! ## Facts about the v1 package -/

/-- C14: in the v1 package every result that `Execute` returns has `ExitCode` 0. When it
returns a non-nil error the result is the zero-value `ExecResult`, with empty `Stdout`
and `Stderr`: the exit status of the child and the captured output are discarded. When
it returns a nil error the `ExitCode` is 0. -/
theorem v1.Execute_returns_ExitCode_zero (et : v1.ExecTask) (w : v1.World)
    (res : v1.ExecResult) (err : Option GoError)
    (h : (et.Execute w).ret = v1.Ret.returns res err) :
    res.ExitCode = 0 ∧
    (err ≠ none → res = { Stdout := "", Stderr := "", ExitCode := 0 }) ∧
    (err = none → res.ExitCode = 0) := by
  have key : res.ExitCode = 0 ∧ (err ≠ none → res = {}) := by
    cases hs : w.startErr <;> cases hw : w.waitErr <;> cases hc : et.Context <;>
      cases hf : w.ctxFired <;> cases hss : w.sawSuccess <;> cases hp : w.processSet <;>
      cases hcf : w.ctxErrFirst <;>
      simp [v1.ExecTask.Execute, hs, hw, hc, hf, hss, hp, hcf, v1.returnAfterWait,
        v1.groupWait] at h <;>
      (obtain ⟨h1, h2⟩ := h; subst h1 h2; simp)
  exact ⟨key.1, key.2, fun _ => key.1⟩

/-- The C14 theorem at a child that exits with status 3 before the deadline of the
context expires: `Execute` returns the error of `Wait` with the zero-value result, the
status 3 and the output `"out"` and `"err"` are gone. -/
theorem v1.Execute_returns_ExitCode_zero_witness :
    (v1.falseTask.Execute v1.exits3ThenDeadline).ret
      = v1.Ret.returns {} (some (GoError.ExitError (ProcessState.exited 3))) ∧
    (({} : v1.ExecResult).ExitCode = 0 ∧
      (some (GoError.ExitError (ProcessState.exited 3)) ≠ none →
        ({} : v1.ExecResult) = { Stdout := "", Stderr := "", ExitCode := 0 }) ∧
      (some (GoError.ExitError (ProcessState.exited 3)) = none →
        ({} : v1.ExecResult).ExitCode = 0)) :=
  ⟨by decide,
    v1.Execute_returns_ExitCode_zero v1.falseTask v1.exits3ThenDeadline {}
      (some (GoError.ExitError (ProcessState.exited 3))) (by decide)⟩

/-- When the child starts and exits normally and the second goroutine reads `success`
after it was set, v1 `Execute` returns the captured output with `ExitCode` 0 and a nil
error. -/
theorem v1.Execute_returns_of_success (et : v1.ExecTask) (w : v1.World)
    (hStart : w.startErr = none) (hWait : w.waitErr = none) (hSaw : w.sawSuccess = true) :
    (et.Execute w).ret
      = v1.Ret.returns
          { Stdout := String.join w.stdoutWrites, Stderr := String.join w.stderrWrites,
            ExitCode := 0 }
          none := by
  cases hS : et.StreamStdio <;>
    simp [v1.ExecTask.Execute, hStart, hWait, hSaw, hS, v1.returnAfterWait, v1.groupWait,
      delivered, bufferString]

theorem strings.indexChars_eq_none_iff (sep : Char) (cs : List Char) :
    strings.indexChars sep cs = none ↔ sep ∉ cs := by
  induction cs with
  | nil => simp [strings.indexChars]
  | cons c cs ih =>
    by_cases hc : c = sep
    · simp [strings.indexChars, hc]
    · have hne : ¬ sep = c := fun e => hc e.symm
      simp [strings.indexChars, hc, hne, ih]

/-- The first `sep` of `s` is at an offset greater than 0 exactly when `s` does not
start with `sep` and has a `sep` further on. -/
theorem strings.Index_pos_iff (s : String) (sep : Char) :
    strings.Index s sep > 0 ↔ ∃ c cs, s.data = c :: cs ∧ c ≠ sep ∧ sep ∈ cs := by
  unfold strings.Index
  cases hd : s.data with
  | nil => simp [strings.indexChars]
  | cons c cs =>
    by_cases hc : c = sep
    · simp [strings.indexChars, hc]
    · cases hi : strings.indexChars sep cs with
      | none =>
        have hn : sep ∉ cs := (strings.indexChars_eq_none_iff sep cs).1 hi
        simp [strings.indexChars, hc, hi, hn]
      | some i =>
        have hm : sep ∈ cs := by
          by_contra hn
          rw [(strings.indexChars_eq_none_iff sep cs).2 hn] at hi
          exact Option.noConfusion hi
        have hpos : 0 < c.utf8Size := Char.utf8Size_pos c
        have hv : strings.indexChars sep (c :: cs) = some (i + c.utf8Size) := by
          simp [strings.indexChars, hc, hi]
        rw [hv]
        constructor
        · intro _
          exact ⟨c, cs, rfl, hc, hm⟩
        · intro _
          show (0 : Int) < ((i + c.utf8Size : Nat) : Int)
          omega

/-- The name and the arguments of the command that v1 `Execute` configures are those of
`execCommand`. -/
theorem v1.Execute_cmd (et : v1.ExecTask) (w : v1.World) :
    ((et.Execute w).cmd.Path, (et.Execute w).cmd.Args) = et.execCommand := by
  simp [v1.ExecTask.Execute]

/-- C15: for every task `(Command, Args, Shell)` with an empty shell path, the executable
and the argument list that v1 `Execute` passes to `exec.Command` equal the pair that v2
`buildCommand` returns if and only if it is not the case that `Shell` is false and
`Command` begins with a space. -/
theorem v1_command_eq_buildCommand_iff (et1 : v1.ExecTask) (et2 : ExecTask)
    (w : v1.World) (hC : et2.Command = et1.Command) (hA : et2.Args = et1.Args)
    (hS : et2.Shell = et1.Shell) (hP : et2.ShallPath = "") :
    ((et1.Execute w).cmd.Path, (et1.Execute w).cmd.Args) = et2.buildCommand ↔
      ¬ (et1.Shell = false ∧ et1.Command.data.head? = some ' ') := by
  rw [v1.Execute_cmd]
  have hT : strings.TrimSpace "" = "" := by decide
  cases hShell : et1.Shell with
  | true =>
    have h2 : et2.Shell = true := hS.trans hShell
    by_cases hArgs : et1.Args = [] <;>
      simp [v1.ExecTask.execCommand, ExecTask.buildCommand, hShell, h2, hP, hT, hC, hA, hArgs]
  | false =>
    have h2 : et2.Shell = false := hS.trans hShell
    by_cases hpos : strings.Index et1.Command ' ' > 0
    · obtain ⟨c, cs, hd, hc, hm⟩ := (strings.Index_pos_iff et1.Command ' ').1 hpos
      have hcon : strings.Contains et1.Command ' ' = true := by
        simp [strings.Contains, hd, hm]
      have hhead : ¬ et1.Command.data.head? = some ' ' := by
        simp [hd, hc]
      simp [v1.ExecTask.execCommand, ExecTask.buildCommand, hShell, h2, hC, hpos, hcon, hhead]
    · by_cases hcon : strings.Contains et1.Command ' ' = true
      · have hmem : ' ' ∈ et1.Command.data := by
          simpa [strings.Contains] using hcon
        cases hd : et1.Command.data with
        | nil => simp [hd] at hmem
        | cons c cs =>
          have hc : c = ' ' := by
            by_contra hne
            have hcs : ' ' ∈ cs := by
              rw [hd] at hmem
              rcases List.mem_cons.1 hmem with h | h
              · exact absurd h.symm hne
              · exact h
            exact hpos ((strings.Index_pos_iff et1.Command ' ').2 ⟨c, cs, hd, hne, hcs⟩)
          subst hc
          have hsplit : (strings.Split et1.Command ' ').head?.getD "" = "" := by
            simp only [strings.Split, hd, strings.splitChars, if_true, List.head?_cons,
              Option.getD_some]
          have hne : et1.Command ≠ "" := by
            intro h
            rw [h] at hd
            exact List.noConfusion hd
          simp only [v1.ExecTask.execCommand, ExecTask.buildCommand, hShell, h2, hC, hpos,
            hcon, if_true, if_false, Bool.false_eq_true, List.headD_eq_head?_getD, hsplit,
            Prod.mk.injEq, hd, List.head?_cons, true_and, not_true_eq_false, iff_false,
            not_and]
          intro h
          exact absurd h hne
      · have hcon2 : strings.Contains et1.Command ' ' = false := by simpa using hcon
        have hhead : ¬ et1.Command.data.head? = some ' ' := by
          intro h
          apply hcon
          cases hd : et1.Command.data with
          | nil => simp [hd] at h
          | cons c cs =>
            rw [hd] at h
            simp at h
            simp [strings.Contains, hd, h]
        simp [v1.ExecTask.execCommand, ExecTask.buildCommand, hShell, h2, hC, hA, hpos,
          hcon2, hhead]

/-- C15 at the command `" ls -l"`, which begins with a space: v1 runs it unsplit, v2
splits it into an empty executable and two arguments. -/
theorem v1_command_eq_buildCommand_iff_witness :
    ({ Command := " ls -l" } : ExecTask).Command = ({ Command := " ls -l" } : v1.ExecTask).Command ∧
    ({ Command := " ls -l" } : ExecTask).ShallPath = "" ∧
    ({ Command := " ls -l" } : v1.ExecTask).execCommand = (" ls -l", []) ∧
    ({ Command := " ls -l" } : ExecTask).buildCommand = ("", ["ls", "-l"]) ∧
    ¬ (((({ Command := " ls -l" } : v1.ExecTask).Execute {}).cmd.Path,
        (({ Command := " ls -l" } : v1.ExecTask).Execute {}).cmd.Args)
        = ({ Command := " ls -l" } : ExecTask).buildCommand) :=
  ⟨rfl, rfl, by decide, by decide,
    fun h => (v1_command_eq_buildCommand_iff { Command := " ls -l" } { Command := " ls -l" }
      {} rfl rfl rfl rfl).1 h ⟨rfl, by decide⟩⟩
